import Mathlib

/-!
Verification of the alarms-and-reminders coordinator, storage debouncer and
satellite announcer.  The definitions below are a shallow embedding of
`custom_components/alarms_and_reminders/coordinator.py`, `storage.py` and
`announcer.py`: Python dicts become association lists, timezone-aware local
datetimes become microsecond counts, the asyncio event loop becomes explicit
sequential state passing, and every externally observable side effect
(storage save, dispatcher send, entity-state set, bus event, timer arming,
playback start) is recorded in an ordered effect log.
-/

set_option maxHeartbeats 1000000
set_option maxRecDepth 100000

/-- One day in microseconds. -/
def dayUs : Nat := 86400000000

/-- One minute in microseconds. -/
def minUs : Nat := 60000000

/-! ### Association lists with Python-dict semantics
`lookupA` finds the value bound to a key; `insertA` updates an existing
binding in place (keeping its position, like Python dict assignment) or
appends a fresh binding; `eraseA` removes a binding (`dict.pop`). -/

def lookupA {α : Type} (k : String) : List (String × α) → Option α
  | [] => none
  | (k', v) :: rest => if k' = k then some v else lookupA k rest

def insertA {α : Type} (k : String) (v : α) : List (String × α) → List (String × α)
  | [] => [(k, v)]
  | (k', v') :: rest => if k' = k then (k, v) :: rest else (k', v') :: insertA k v rest

def eraseA {α : Type} (k : String) : List (String × α) → List (String × α)
  | [] => []
  | (k', v') :: rest => if k' = k then rest else (k', v') :: eraseA k rest

/-- The keys of an association list. -/
def keysA {α : Type} (l : List (String × α)) : List String := l.map Prod.fst

/-! ### The item record
Mirrors the dict built in `coordinator.schedule_item` (plus the audit keys
`last_stopped` / `last_rescheduled_from` added by `stop_item` and
`snooze_item`).  Statuses are the literal strings the code uses:
"scheduled", "active", "stopped", "error". -/

structure Item where
  scheduled_time : Option Nat
  satellite : Option String
  message : String
  is_alarm : Bool
  repeatPolicy : String
  repeat_days : List String
  status : String
  name : String
  entity_id : String
  unique_id : String
  enabled : Bool
  sound_file : Option String
  notify_device : Option String
  last_stopped : Option Nat
  last_rescheduled_from : Option Nat
deriving Repr, DecidableEq

/-! ### Observable effects
Each constructor records one externally observable action of the
coordinator, in the order the Python code performs them. -/

inductive Effect where
  | save (snapshot : List (String × Item))
  | dispatch (signal : String)
  | stateSet (entity state : String)
  | busFire (event : String)
  | notifySend (id : String)
  | startPlayback (id : String)
  | armTimer (id : String) (fireAt : Nat)
deriving Repr, DecidableEq

/-- Persistence effects (writes of the store). -/
def Effect.isSave : Effect → Bool
  | .save _ => true
  | _ => false

/-- Externally observable notifications of a state transition:
entity-state updates, event fires and dispatcher sends. -/
def Effect.isNotify : Effect → Bool
  | .dispatch _ => true
  | .stateSet _ _ => true
  | .busFire _ => true
  | _ => false

/-! ### Coordinator state
`active_items` is `self._active_items`, `stop_events` maps an id to the
is-set flag of its `asyncio.Event`, `store` is the flattened persisted
mapping, and `log` is the ordered effect trace of the current run. -/

structure Coord where
  active_items : List (String × Item)
  stop_events : List (String × Bool)
  store : List (String × Item)
  log : List Effect
deriving Repr, DecidableEq

/-- Append one effect to the log. -/
def emit (st : Coord) (e : Effect) : Coord :=
  { st with log := st.log ++ [e] }

/-- `self.storage.async_save(self._active_items)`: overwrite the persisted
mapping with the current in-memory table and record the write. -/
def doSave (st : Coord) : Coord :=
  { st with store := st.active_items, log := st.log ++ [Effect.save st.active_items] }

/-- `_update_dashboard_state`: set the single dashboard entity (state
"active" when any item is active, else "idle") and dispatch the
dashboard-updated signal. -/
def updateDashboard (st : Coord) : Coord :=
  let overall := if st.active_items.any (fun p => p.2.status = "active") then "active" else "idle"
  let st := emit st (Effect.stateSet "alarms_and_reminders.items" overall)
  emit st (Effect.dispatch "dashboard_updated")

/-- `if item_id.startswith(f"DOMAIN."): item_id = item_id.split(".")[-1]` -/
def stripDomain (s : String) : String :=
  if s.startsWith "alarms_and_reminders." then (s.splitOn ".").getLastD s else s

/-! ### `_get_next_available_id`
The Python loop tries `alarm_1`, `alarm_2`, ... until it finds a key not
present in `self._active_items`.  The loop is unbounded in the source; here
it carries fuel `length + 1`, which always suffices (pigeonhole, proved
below as `lookupA_get_next_available_id`). -/

/-- Candidate id for counter `c`. -/
def candId (p : String) (c : Nat) : String := p ++ "_" ++ Nat.repr c

def nextIdGo {α : Type} (items : List (String × α)) (p : String) : Nat → Nat → String
  | 0, c => candId p c
  | fuel+1, c =>
    if (lookupA (candId p c) items).isSome then nextIdGo items p fuel (c+1)
    else candId p c

def get_next_available_id {α : Type} (p : String) (items : List (String × α)) : String :=
  nextIdGo items p (items.length + 1) 1

/-! ### `schedule_item`
The service-call payload; `time` is a time-of-day in microseconds (the
"already a time object" branch of the source), `date` a day index. -/

structure ScheduleCall where
  time : Option Nat
  date : Option Nat
  message : String
  name : Option String
  repeatPolicy : Option String
  repeat_days : Option (List String)
  sound_file : Option String
  notify_device : Option String
deriving Repr, DecidableEq

/-- Name resolution in `schedule_item`: alarms fall back to a numeric id on
collision; reminders must be named and a colliding name raises
`ValueError`.  Returns `(item_name, display_name)`. -/
def resolveName (isAlarm : Bool) (supplied : Option String)
    (items : List (String × Item)) : Except String (String × String) :=
  if isAlarm then
    match supplied with
    | some s =>
      let item_name := s.replace " " "_"
      if (lookupA item_name items).isSome then
        let n := get_next_available_id "alarm" items
        Except.ok (n, n)
      else Except.ok (item_name, s)
    | none =>
      let n := get_next_available_id "alarm" items
      Except.ok (n, n)
  else
    match supplied with
    | none => Except.error "Reminders require a name"
    | some s =>
      let item_name := s.replace " " "_"
      if (lookupA item_name items).isSome then
        Except.error "Reminder name already exists"
      else Except.ok (item_name, s)

/-- `datetime.combine(date or now.date(), time or now.time())`: the
candidate instant before the past-time adjustment. -/
def schedule_combined (now : Nat) (call : ScheduleCall) : Nat :=
  (call.date.getD (now / dayUs)) * dayUs + call.time.getD (now % dayUs)

/-- "If the computed time is already in the past, push to next day" — this
happens whenever `combined ≤ now`, whether or not an explicit date was
supplied. -/
def schedule_time_of (now : Nat) (call : ScheduleCall) : Nat :=
  if schedule_combined now call ≤ now then schedule_combined now call + dayUs
  else schedule_combined now call

/-- The item dict built by `schedule_item`. -/
def mkScheduledItem (now : Nat) (call : ScheduleCall) (isAlarm : Bool)
    (targetSat : Option String) (item_id display_name : String) : Item :=
  { scheduled_time := some (schedule_time_of now call)
    satellite := targetSat
    message := call.message
    is_alarm := isAlarm
    repeatPolicy := call.repeatPolicy.getD "once"
    repeat_days := call.repeat_days.getD []
    status := "scheduled"
    name := display_name
    entity_id := item_id
    unique_id := item_id
    enabled := true
    sound_file := call.sound_file
    notify_device := call.notify_device
    last_stopped := none
    last_rescheduled_from := none }

/-- The successful tail of `schedule_item`: store the new item in memory,
persist, notify, and arm the trigger timer. -/
def schedule_apply (now : Nat) (call : ScheduleCall) (isAlarm : Bool)
    (targetSat : Option String) (item_id display_name : String) (st : Coord) : Coord :=
  let item := mkScheduledItem now call isAlarm targetSat item_id display_name
  let st := { st with active_items := insertA item_id item st.active_items }
  let st := doSave st
  let st := updateDashboard st
  let st := emit st (Effect.dispatch "dashboard_updated")
  let st := emit st (Effect.dispatch "item_created")
  let st := emit st (Effect.armTimer item_id (schedule_time_of now call))
  st

/-- `schedule_item(call, is_alarm, target)`.  On error the raised exception
carries the coordinator state at the raise point, so partial application
would be visible in the error value. -/
def schedule_item (now : Nat) (call : ScheduleCall) (isAlarm : Bool)
    (targetSat : Option String) (st : Coord) : Except (String × Coord) Coord :=
  match resolveName isAlarm call.name st.active_items with
  | Except.error msg => Except.error (msg, st)
  | Except.ok (item_id, display_name) =>
    Except.ok (schedule_apply now call isAlarm targetSat item_id display_name st)

/-- `_trigger_item(item_id)`: no-op for an unknown id; otherwise set status
"active", persist, notify, create the stop event, optionally send the
mobile notification, and start playback.  The `enabled` flag is never
consulted. -/
def trigger_item (id : String) (st : Coord) : Coord :=
  match lookupA id st.active_items with
  | none => st
  | some item =>
    let item := { item with status := "active" }
    let st := { st with active_items := insertA id item st.active_items }
    let st := doSave st
    let st := updateDashboard st
    let st := emit st (Effect.dispatch "dashboard_updated")
    let st := emit st (Effect.dispatch "item_updated")
    let st := { st with stop_events := insertA id false st.stop_events }
    let st := if item.notify_device.isSome then emit st (Effect.notifySend id) else st
    emit st (Effect.startPlayback id)

/-- The tail of `stop_item` once the item has been found (in memory or
restored from storage): bail out on kind mismatch, set the stop event,
mark stopped with `last_stopped = now`, persist, and notify. -/
def stop_item_found (now : Nat) (id : String) (isAlarm : Bool) (st : Coord) (item : Item) :
    Coord :=
  if item.is_alarm ≠ isAlarm then st
  else
    let st :=
      match lookupA id st.stop_events with
      | some _ => { st with stop_events := insertA id true st.stop_events }
      | none => st
    let item := { item with status := "stopped", last_stopped := some now }
    let st := { st with active_items := insertA id item st.active_items }
    let st := doSave st
    let st := updateDashboard st
    let st := emit st (Effect.dispatch "dashboard_updated")
    let st := emit st (Effect.dispatch "item_updated")
    emit st (Effect.busFire "state_changed")

/-- `stop_item(item_id, is_alarm)`: strip the domain prefix, find the item
in memory — or restore it from storage into the in-memory table — then run
the common stop tail. -/
def stop_item (now : Nat) (rawId : String) (isAlarm : Bool) (st : Coord) : Coord :=
  let id := stripDomain rawId
  match lookupA id st.active_items with
  | some item => stop_item_found now id isAlarm st item
  | none =>
    match lookupA id st.store with
    | some item =>
      stop_item_found now id isAlarm
        { st with active_items := insertA id item st.active_items } item
    | none => st

/-- Steps 2-6 of `snooze_item` once the freshly re-read item is in hand:
set `scheduled_time` to `now + minutes` truncated to the minute, status
"scheduled", update the audit stamps, persist, notify, and re-arm the
trigger timer via `call_later(new_time - now)`. -/
def snooze_item_finish (now : Nat) (id : String) (minutes : Nat) (st : Coord)
    (item : Item) : Coord :=
  let newTime := ((now + minutes * minUs) / minUs) * minUs
  let item :=
    { item with
        scheduled_time := some newTime
        status := "scheduled"
        last_rescheduled_from :=
          match item.last_stopped with
          | some v => some v
          | none => item.last_rescheduled_from
        last_stopped := some now }
  let st := { st with active_items := insertA id item st.active_items }
  let st := doSave st
  let st := updateDashboard st
  let st := emit st (Effect.dispatch "dashboard_updated")
  let st := emit st (Effect.dispatch "item_updated")
  let st := emit st (Effect.armTimer id newTime)
  emit st (Effect.busFire "state_changed")

/-- Step 1 of `snooze_item` after the id/kind guards: stop the item, then
verify it reads back as "stopped" before rescheduling it. -/
def snooze_item_go (now : Nat) (id : String) (minutes : Nat) (isAlarm : Bool)
    (st : Coord) : Coord :=
  let st := stop_item now id isAlarm st
  let notStopped : Bool :=
    match lookupA id st.active_items with
    | some it => it.status != "stopped"
    | none => false
  if notStopped then st
  else
    match lookupA id st.active_items with
    | none => st
    | some item => snooze_item_finish now id minutes st item

/-- `snooze_item(item_id, minutes, is_alarm)`: strip the domain prefix,
bail out on unknown id or kind mismatch, then stop and reschedule. -/
def snooze_item (now : Nat) (rawId : String) (minutes : Nat) (isAlarm : Bool)
    (st : Coord) : Coord :=
  let id := stripDomain rawId
  match lookupA id st.active_items with
  | none => st
  | some item0 =>
    if item0.is_alarm ≠ isAlarm then st
    else snooze_item_go now id minutes isAlarm st

/-- One iteration body of the `stop_all_items` loop for snapshot entry
`(id, item)`: a matching active/scheduled item has its stop event set and
popped, is set to "stopped" in memory and has its entity state updated —
the store is never written.  Returns the new state and whether the entry
was counted as stopped. -/
def stopAllStep (isAlarm : Option Bool) (id : String) (item : Item) (st : Coord) :
    Coord × Bool :=
  if (match isAlarm with | none => true | some b => item.is_alarm == b) then
    if item.status = "active" ∨ item.status = "scheduled" then
      let st :=
        match lookupA id st.stop_events with
        | some _ => { st with stop_events := eraseA id st.stop_events }
        | none => st
      let item := { item with status := "stopped" }
      let st := { st with active_items := insertA id item st.active_items }
      let st := emit st (Effect.stateSet ("alarms_and_reminders." ++ id) "stopped")
      (st, true)
    else (st, false)
  else (st, false)

/-- The `stop_all_items` loop over a snapshot of the item table. -/
def stopAllGo (isAlarm : Option Bool) : List (String × Item) → Coord → Nat → Coord × Nat
  | [], st, count => (st, count)
  | (id, item) :: rest, st, count =>
    let r := stopAllStep isAlarm id item st
    stopAllGo isAlarm rest r.1 (if r.2 then count + 1 else count)

/-- `stop_all_items(is_alarm)`. -/
def stop_all_items (isAlarm : Option Bool) (st : Coord) : Coord :=
  let r := stopAllGo isAlarm st.active_items st 0
  if r.2 > 0 then
    let st := updateDashboard r.1
    let st := emit st (Effect.dispatch "dashboard_updated")
    emit st (Effect.busFire "state_changed")
  else r.1

/-- The tail of `_start_playback` (after the playback loop has ended for
any reason): an item still marked "active" becomes "stopped" with a
`last_stopped` stamp, is persisted and notified; then the notification tag
and stop event are cleaned up. -/
def playback_session_end (now : Nat) (id : String) (st : Coord) : Coord :=
  let st :=
    match lookupA id st.active_items with
    | some item =>
      if item.status = "active" then
        let item := { item with status := "stopped", last_stopped := some now }
        let st := { st with active_items := insertA id item st.active_items }
        let st := doSave st
        let st := updateDashboard st
        let st := emit st (Effect.dispatch "item_updated")
        let st := emit st (Effect.stateSet ("alarms_and_reminders." ++ id) "stopped")
        emit st (Effect.busFire "state_changed")
      else st
    | none => st
  { st with stop_events := eraseA id st.stop_events }

/-! ### Announcer ring-session state machine
Shallow embedding of `Announcer.announce_on_satellite`.  The environment is
a trace: each `Tick` is one 0.3-second poll of the inner play-wait loop,
carrying the satellite transition observed since the previous poll (the
`state_changed` callback), the stop-event value at the loop-head check, and
the stop-event value sampled after the 2-second voice-command grace sleep.
-/

structure Tick where
  ev : Option (String × String)
  stopFlag : Bool
  stopAfterGrace : Bool
deriving Repr, DecidableEq

/-- The two nonlocal flags mutated by `_on_satellite_state_changed`. -/
structure Flags where
  sudden_idle : Bool
  voice : Bool
deriving Repr, DecidableEq

/-- The state-change callback: a transition responding→idle sets
`sudden_idle_detected`, responding→listening sets
`voice_command_detected`; everything else is ignored. -/
def applyEvent (f : Flags) : Option (String × String) → Flags
  | none => f
  | some (o, n) =>
    let f := if o = "responding" ∧ n = "idle" then { f with sudden_idle := true } else f
    if o = "responding" ∧ n = "listening" then { f with voice := true } else f

/-- The inner `while elapsed < audio_duration` loop.  Consuming the whole
tick list models the audio duration elapsing naturally.  Returns the flags
at loop exit together with the stop-event value read by the post-loop
check, where `stopFinal` is the stop-event value when the audio runs to
completion. -/
def playWait (f : Flags) (stopFinal : Bool) : List Tick → Flags × Bool
  | [] => (f, stopFinal)
  | t :: rest =>
    let f := applyEvent f t.ev
    if t.stopFlag then ({ f with sudden_idle := true }, t.stopFlag)
    else if f.sudden_idle then (f, t.stopFlag)
    else if f.voice then
      if t.stopAfterGrace then (f, true)
      else ({ f with voice := false }, false)
    else playWait f stopFinal rest

/-- What the session does after a play attempt: `step 3` of the source —
`if sudden_idle_detected or stop_event.is_set(): break` ends the session,
otherwise the loop goes back to the announcement. -/
inductive CycleOutcome where
  | terminate
  | loopBack
deriving Repr, DecidableEq

def cycleDecision (res : Flags × Bool) : CycleOutcome :=
  if res.1.sudden_idle ∨ res.2 then CycleOutcome.terminate else CycleOutcome.loopBack

/-- Environment of one full announce/play cycle: the stop-event value at
the outer loop head, the satellite state polled by `get_current_state`,
the tick trace of the play wait, and the stop value at natural audio end. -/
structure CycleInput where
  headStop : Bool
  readyState : String
  ticks : List Tick
  stopFinal : Bool
deriving Repr, DecidableEq

/-- The outer `while ring_state["active"]` loop, driven by one `CycleInput`
per cycle (the trace length bounds the run).  Returns the number of full
announcements made before the session ended or the trace ran out. -/
def runSession (f : Flags) : List CycleInput → Nat
  | [] => 0
  | c :: rest =>
    if c.headStop then 0
    else if f.sudden_idle then 0
    else if ¬ (c.readyState = "idle" ∨ c.readyState = "responding" ∨ c.readyState = "listening")
    then runSession f rest
    else
      let res := playWait { sudden_idle := false, voice := false } c.stopFinal c.ticks
      match cycleDecision res with
      | CycleOutcome.terminate => 1
      | CycleOutcome.loopBack => 1 + runSession res.1 rest

/-- A responding→idle transition (the only idle report the callback acts
on). -/
def isRespIdle : Option (String × String) → Prop
  | some (o, n) => o = "responding" ∧ n = "idle"
  | none => False

/-- A responding→listening transition (voice command). -/
def isRespListen : Option (String × String) → Prop
  | some (o, n) => o = "responding" ∧ n = "listening"
  | none => False

instance (ev : Option (String × String)) : Decidable (isRespIdle ev) := by
  unfold isRespIdle
  exact match ev with
  | none => inferInstanceAs (Decidable False)
  | some (o, n) => inferInstanceAs (Decidable (_ ∧ _))

instance (ev : Option (String × String)) : Decidable (isRespListen ev) := by
  unfold isRespListen
  exact match ev with
  | none => inferInstanceAs (Decidable False)
  | some (o, n) => inferInstanceAs (Decidable (_ ∧ _))

/-! ### Storage debouncer
Shallow embedding of `AlarmReminderStorage.async_schedule_save`.  `armed`
lists the handles of save callbacks currently scheduled (armed and neither
cancelled nor fired); `pending` is `self._save_handle` (note the source
never clears it when the callback fires, so it can go stale); `counter`
generates fresh handles. -/

structure Debounce where
  pending : Option Nat
  armed : List Nat
  counter : Nat
deriving Repr, DecidableEq

def Debounce.init : Debounce := { pending := none, armed := [], counter := 0 }

/-- `async_schedule_save`: cancel the previously scheduled save (if the
stored cancel handle is stale this is a no-op, matching the guarded
`try: self._save_handle()` call), then arm a fresh delayed save. -/
def schedule_save (s : Debounce) : Debounce :=
  let s :=
    match s.pending with
    | some h => { s with armed := s.armed.erase h, pending := none }
    | none => s
  { pending := some s.counter, armed := s.armed ++ [s.counter], counter := s.counter + 1 }

/-- The delayed callback firing: the armed save runs and disarms itself
(the source leaves `self._save_handle` set). -/
def fire_save (s : Debounce) (h : Nat) : Debounce :=
  { s with armed := s.armed.erase h }

/-- Environment steps interleaving mutations (each of which calls
`async_schedule_save`) with timer callbacks firing. -/
inductive DebounceOp where
  | scheduleSave
  | fireSave (h : Nat)
deriving Repr, DecidableEq

def debounceStep (s : Debounce) : DebounceOp → Debounce
  | DebounceOp.scheduleSave => schedule_save s
  | DebounceOp.fireSave h => fire_save s h

def debounceRun (ops : List DebounceOp) : Debounce :=
  ops.foldl debounceStep Debounce.init

/-- A structurally recursive decimal digit list, used to reason about
`Nat.repr` inside the generated alarm ids. -/
def natDigits (n : Nat) : List Char :=
  if _h : n < 10 then [Nat.digitChar n]
  else natDigits (n / 10) ++ [Nat.digitChar (n % 10)]
termination_by n
decreasing_by exact Nat.div_lt_self (by omega) (by omega)

/-- The stored cancel handle tracks the single armed callback (the handle
can go stale after the callback fires, in which case nothing is armed). -/
def DebounceInv (s : Debounce) : Prop :=
  match s.pending with
  | some h => s.armed = [] ∨ s.armed = [h]
  | none => s.armed = []

/-! ## Concrete sample data -/

/-- A representative alarm item as `schedule_item` would build it. -/
def baseItem : Item :=
  { scheduled_time := some 1000000000000
    satellite := some "kitchen"
    message := ""
    is_alarm := true
    repeatPolicy := "once"
    repeat_days := []
    status := "scheduled"
    name := "alarm_1"
    entity_id := "alarm_1"
    unique_id := "alarm_1"
    enabled := true
    sound_file := none
    notify_device := none
    last_stopped := none
    last_rescheduled_from := none }

/-- A daily-repeating alarm. -/
def itemDaily : Item := { baseItem with repeatPolicy := "daily" }

/-- A one-shot alarm whose ring session is currently running. -/
def itemOnceActive : Item := { baseItem with status := "active" }

/-- A disabled alarm. -/
def itemDisabled : Item := { baseItem with enabled := false }

/-- A reminder item. -/
def c8item : Item := { baseItem with is_alarm := false, name := "wake up" }

/-- The sanitized id of the reminder named "wake up". -/
def c8key : String := "wake up".replace " " "_"

/-- A coordinator holding one reminder under the sanitized name. -/
def c8state : Coord := ⟨[(c8key, c8item)], [], [(c8key, c8item)], []⟩

/-- A schedule call that names the colliding reminder. -/
def c8call : ScheduleCall :=
  { time := some 0, date := none, message := "", name := some "wake up",
    repeatPolicy := none, repeat_days := none, sound_file := none, notify_device := none }

/-- A schedule call with an explicit (past) date: day 0 at 08:00. -/
def c3call : ScheduleCall :=
  { time := some 28800000000, date := some 0, message := "", name := none,
    repeatPolicy := some "daily", repeat_days := none, sound_file := none,
    notify_device := none }

/-- A poll tick with no event and no stop. -/
def tickNone : Tick := { ev := none, stopFlag := false, stopAfterGrace := false }

/-- A poll tick observing the satellite transition responding→idle. -/
def tickIdle : Tick :=
  { ev := some ("responding", "idle"), stopFlag := false, stopAfterGrace := false }

/-- A cycle during which the satellite reports idle mid-play. -/
def cycleWithIdle : CycleInput :=
  { headStop := false, readyState := "responding", ticks := [tickNone, tickIdle, tickNone],
    stopFinal := false }

/-- A cycle with no events at all. -/
def cycleQuiet : CycleInput :=
  { headStop := false, readyState := "idle", ticks := [tickNone], stopFinal := false }

/-! ## Lemmas about association lists -/

theorem lookupA_insertA_self {α : Type} (k : String) (v : α) :
    ∀ l : List (String × α), lookupA k (insertA k v l) = some v := by
  intro l
  induction l with
  | nil => simp [insertA, lookupA]
  | cons hd tl ih =>
    by_cases h : hd.1 = k
    · simp [insertA, lookupA, h]
    · simp only [insertA]
      rw [if_neg h]
      simp only [lookupA]
      rw [if_neg h]
      exact ih

theorem lookupA_insertA_ne {α : Type} (k k' : String) (v : α) (hne : k ≠ k') :
    ∀ l : List (String × α), lookupA k' (insertA k v l) = lookupA k' l := by
  intro l
  induction l with
  | nil => simp [insertA, lookupA, hne]
  | cons hd tl ih =>
    by_cases h : hd.1 = k
    · simp only [insertA]
      rw [if_pos h]
      simp only [lookupA]
      rw [if_neg hne, if_neg (h ▸ hne)]
    · simp only [insertA]
      rw [if_neg h]
      simp only [lookupA]
      by_cases h2 : hd.1 = k'
      · rw [if_pos h2, if_pos h2]
      · rw [if_neg h2, if_neg h2]
        exact ih

theorem lookupA_isSome_mem_keys {α : Type} (k : String) :
    ∀ l : List (String × α), (lookupA k l).isSome → k ∈ keysA l := by
  intro l
  induction l with
  | nil => simp [lookupA]
  | cons hd tl ih =>
    simp only [lookupA, keysA, List.map_cons, List.mem_cons]
    by_cases h : hd.1 = k
    · intro _; exact Or.inl h.symm
    · rw [if_neg h]
      intro hs
      exact Or.inr (ih hs)

theorem keysA_length {α : Type} (l : List (String × α)) : (keysA l).length = l.length := by
  simp [keysA]

/-! ## Injectivity of the decimal numeral used by `_get_next_available_id`
`Nat.repr` is `(Nat.toDigitsCore 10 (n+1) n []).asString`; we relate it to
a structurally recursive digit function and prove injectivity. -/


theorem natDigits_small {n : Nat} (h : n < 10) : natDigits n = [Nat.digitChar n] := by
  rw [natDigits]
  simp [h]

theorem natDigits_big {n : Nat} (h : ¬ n < 10) :
    natDigits n = natDigits (n / 10) ++ [Nat.digitChar (n % 10)] := by
  rw [natDigits]
  simp [h]

theorem natDigits_ne_nil (n : Nat) : natDigits n ≠ [] := by
  by_cases h : n < 10
  · rw [natDigits_small h]
    simp
  · rw [natDigits_big h]
    simp

theorem toDigitsCore_eq_natDigits :
    ∀ fuel n ds, n < fuel → Nat.toDigitsCore 10 fuel n ds = natDigits n ++ ds := by
  intro fuel
  induction fuel with
  | zero => intro n ds h; omega
  | succ f ih =>
    intro n ds h
    simp only [Nat.toDigitsCore]
    by_cases h0 : n / 10 = 0
    · have hn : n < 10 := by omega
      rw [if_pos h0, natDigits_small hn, Nat.mod_eq_of_lt hn]
      simp
    · have hn : ¬ n < 10 := by
        intro hc
        exact h0 (Nat.div_eq_of_lt hc)
      rw [if_neg h0, ih (n / 10) _ (by omega)]
      rw [natDigits_big hn]
      simp

theorem natRepr_eq (n : Nat) : Nat.repr n = (natDigits n).asString := by
  show (Nat.toDigits 10 n).asString = (natDigits n).asString
  unfold Nat.toDigits
  rw [toDigitsCore_eq_natDigits (n + 1) n [] (by omega)]
  simp

theorem digitChar_inj : ∀ a < 10, ∀ b < 10, Nat.digitChar a = Nat.digitChar b → a = b := by
  decide

theorem natDigits_inj (m : Nat) : ∀ n, natDigits m = natDigits n → m = n := by
  induction m using Nat.strong_induction_on with
  | _ m ih =>
    intro n h
    by_cases hm : m < 10 <;> by_cases hn : n < 10
    · rw [natDigits_small hm, natDigits_small hn] at h
      exact digitChar_inj m hm n hn (List.head_eq_of_cons_eq h)
    · rw [natDigits_small hm, natDigits_big hn] at h
      have hl := congrArg List.length h
      simp at hl
      exact absurd hl (natDigits_ne_nil (n / 10))
    · rw [natDigits_big hm, natDigits_small hn] at h
      have hl := congrArg List.length h
      simp at hl
      exact absurd hl (natDigits_ne_nil (m / 10))
    · rw [natDigits_big hm, natDigits_big hn] at h
      have hp := List.append_inj' h (by simp)
      have hdiv : m / 10 = n / 10 := ih (m / 10) (Nat.div_lt_self (by omega) (by omega)) (n / 10) hp.1
      have hmod : m % 10 = n % 10 := by
        have := List.head_eq_of_cons_eq hp.2
        exact digitChar_inj (m % 10) (Nat.mod_lt m (by omega)) (n % 10) (Nat.mod_lt n (by omega)) this
      have h1 := Nat.div_add_mod m 10
      have h2 := Nat.div_add_mod n 10
      omega

theorem natRepr_inj {m n : Nat} (h : Nat.repr m = Nat.repr n) : m = n := by
  rw [natRepr_eq, natRepr_eq] at h
  have hd : natDigits m = natDigits n := congrArg String.data h
  exact natDigits_inj m n hd

theorem candId_inj (p : String) {c1 c2 : Nat} (h : candId p c1 = candId p c2) : c1 = c2 := by
  apply natRepr_inj
  have hd := congrArg String.data h
  simp only [candId, String.data_append] at hd
  have hd2 := List.append_cancel_left hd
  exact String.ext hd2

/-! ## The auto-generated alarm id is always fresh (pigeonhole) -/

theorem nextIdGo_free {α : Type} (items : List (String × α)) (p : String) :
    ∀ fuel c, (∃ j, j < fuel ∧ lookupA (candId p (c + j)) items = none) →
      lookupA (nextIdGo items p fuel c) items = none := by
  intro fuel
  induction fuel with
  | zero =>
    intro c hex
    obtain ⟨j, hj, _⟩ := hex
    omega
  | succ f ih =>
    intro c hex
    obtain ⟨j, hj, hnone⟩ := hex
    simp only [nextIdGo]
    by_cases hc : (lookupA (candId p c) items).isSome
    · rw [if_pos hc]
      apply ih
      have hj0 : j ≠ 0 := by
        intro h0
        subst h0
        simp only [Nat.add_zero] at hnone
        rw [hnone] at hc
        simp at hc
      refine ⟨j - 1, by omega, ?_⟩
      rw [show c + 1 + (j - 1) = c + j by omega]
      exact hnone
    · rw [if_neg hc]
      cases hopt : lookupA (candId p c) items with
      | none => rfl
      | some v =>
        rw [hopt] at hc
        simp at hc

theorem exists_free_cand {α : Type} (items : List (String × α)) (p : String) :
    ∃ j, j < items.length + 1 ∧ lookupA (candId p (1 + j)) items = none := by
  by_contra hall
  push_neg at hall
  have hmem : ∀ j < items.length + 1, candId p (1 + j) ∈ keysA items := by
    intro j hj
    apply lookupA_isSome_mem_keys
    cases hopt : lookupA (candId p (1 + j)) items with
    | none => exact absurd hopt (hall j hj)
    | some v => simp
  have hinj : Set.InjOn (fun j => candId p (1 + j)) (Finset.range (items.length + 1)) := by
    intro a _ b _ hab
    have := candId_inj p hab
    omega
  have hsub : (Finset.range (items.length + 1)).image (fun j => candId p (1 + j)) ⊆
      (keysA items).toFinset := by
    intro x hx
    simp only [Finset.mem_image, Finset.mem_range] at hx
    obtain ⟨j, hj, rfl⟩ := hx
    simp only [List.mem_toFinset]
    exact hmem j hj
  have h1 : ((Finset.range (items.length + 1)).image (fun j => candId p (1 + j))).card =
      items.length + 1 := by
    rw [Finset.card_image_of_injOn hinj, Finset.card_range]
  have h2 := Finset.card_le_card hsub
  have h3 := (keysA items).toFinset_card_le
  rw [h1] at h2
  rw [keysA_length] at h3
  omega

/-- The id produced by `_get_next_available_id` is never a key of the item
table: the unbounded Python search always terminates with a fresh id. -/
theorem lookupA_get_next_available_id {α : Type} (p : String) (items : List (String × α)) :
    lookupA (get_next_available_id p items) items = none := by
  obtain ⟨j, hj, hnone⟩ := exists_free_cand items p
  exact nextIdGo_free items p (items.length + 1) 1 ⟨j, hj, hnone⟩

theorem insertA_insertA {α : Type} (k : String) (v w : α) :
    ∀ l : List (String × α), insertA k v (insertA k w l) = insertA k v l := by
  intro l
  induction l with
  | nil => simp [insertA]
  | cons hd tl ih =>
    by_cases h : hd.1 = k
    · simp [insertA, h]
    · simp only [insertA]
      rw [if_neg h]
      simp only [insertA]
      rw [if_neg h, if_neg h, ih]

/-! ## Behaviour of `stop_item` -/

/-- The stop tail with the matching kind: status becomes "stopped",
`last_stopped` is stamped, `scheduled_time` is left untouched, the new
table is persisted, and the persistence write is the first effect the call
logs. -/
theorem stop_item_found_spec (now : Nat) (id : String) (b : Bool) (st : Coord) (item : Item)
    (hkind : item.is_alarm = b) :
    (stop_item_found now id b st item).active_items
        = insertA id { item with status := "stopped", last_stopped := some now } st.active_items
      ∧ (stop_item_found now id b st item).store
        = insertA id { item with status := "stopped", last_stopped := some now } st.active_items
      ∧ (stop_item_found now id b st item).log
        = st.log
          ++ [Effect.save
                (insertA id { item with status := "stopped", last_stopped := some now }
                  st.active_items),
              Effect.stateSet "alarms_and_reminders.items"
                (if (insertA id { item with status := "stopped", last_stopped := some now }
                      st.active_items).any (fun p => p.2.status = "active")
                 then "active" else "idle"),
              Effect.dispatch "dashboard_updated",
              Effect.dispatch "dashboard_updated",
              Effect.dispatch "item_updated",
              Effect.busFire "state_changed"] := by
  cases hse : lookupA id st.stop_events with
  | none =>
    refine ⟨?_, ?_, ?_⟩ <;>
      (simp only [stop_item_found, hse]
       simp [hkind, doSave, updateDashboard, emit])
  | some v =>
    refine ⟨?_, ?_, ?_⟩ <;>
      (simp only [stop_item_found, hse]
       simp [hkind, doSave, updateDashboard, emit])

/-- Dispatch of `stop_item` when the id is found in memory. -/
theorem stop_item_eq_found (now : Nat) (id : String) (b : Bool) (st : Coord) (item : Item)
    (hid : stripDomain id = id)
    (hmem : lookupA id st.active_items = some item) :
    stop_item now id b st = stop_item_found now id b st item := by
  simp only [stop_item]
  rw [hid, hmem]

/-- Dispatch of `stop_item` when the id is absent from memory but present
in storage: the stored item is first restored into the in-memory table. -/
theorem stop_item_eq_restore (now : Nat) (id : String) (b : Bool) (st : Coord) (item : Item)
    (hid : stripDomain id = id)
    (hmem : lookupA id st.active_items = none)
    (hstore : lookupA id st.store = some item) :
    stop_item now id b st
      = stop_item_found now id b
          { st with active_items := insertA id item st.active_items } item := by
  simp only [stop_item]
  rw [hid, hmem, hstore]

/-! ## Behaviour of `_trigger_item` -/

/-- `_trigger_item` on a known id: the item is set "active" (whatever its
`enabled` flag says), the new table is persisted as the first logged
effect, and a playback session is started. -/
theorem trigger_item_spec (id : String) (st : Coord) (item : Item)
    (hmem : lookupA id st.active_items = some item) :
    (trigger_item id st).active_items
        = insertA id { item with status := "active" } st.active_items
      ∧ (trigger_item id st).store
        = insertA id { item with status := "active" } st.active_items
      ∧ (∃ tail, (trigger_item id st).log
          = st.log
            ++ Effect.save (insertA id { item with status := "active" } st.active_items)
              :: tail)
      ∧ Effect.startPlayback id ∈ (trigger_item id st).log := by
  cases hnot : item.notify_device with
  | none =>
    refine ⟨?_, ?_,
      ⟨[Effect.stateSet "alarms_and_reminders.items"
          (if (insertA id { item with status := "active" } st.active_items).any
              (fun p => p.2.status = "active")
           then "active" else "idle"),
        Effect.dispatch "dashboard_updated",
        Effect.dispatch "dashboard_updated",
        Effect.dispatch "item_updated",
        Effect.startPlayback id], ?_⟩, ?_⟩ <;>
      (simp only [trigger_item, hmem]
       simp [hnot, doSave, updateDashboard, emit])
  | some dev =>
    refine ⟨?_, ?_,
      ⟨[Effect.stateSet "alarms_and_reminders.items"
          (if (insertA id { item with status := "active" } st.active_items).any
              (fun p => p.2.status = "active")
           then "active" else "idle"),
        Effect.dispatch "dashboard_updated",
        Effect.dispatch "dashboard_updated",
        Effect.dispatch "item_updated",
        Effect.notifySend id,
        Effect.startPlayback id], ?_⟩, ?_⟩ <;>
      (simp only [trigger_item, hmem]
       simp [hnot, doSave, updateDashboard, emit])

/-- `_trigger_item` on an unknown id is a complete no-op. -/
theorem trigger_item_unknown (id : String) (st : Coord)
    (hmem : lookupA id st.active_items = none) :
    trigger_item id st = st := by
  simp [trigger_item, hmem]

/-! ## Behaviour of `stop_all_items`: it notifies but never persists -/

theorem stopAllStep_spec (b : Option Bool) (id : String) (item : Item) (st : Coord) :
    (stopAllStep b id item st).1.store = st.store
      ∧ ∀ e, e ∈ (stopAllStep b id item st).1.log → e ∈ st.log ∨ e.isSave = false := by
  cases hse : lookupA id st.stop_events with
  | none =>
    constructor
    · simp only [stopAllStep, hse]
      split <;> try split
      all_goals rfl
    · simp only [stopAllStep, hse]
      split <;> try split
      all_goals intro e he
      all_goals
        first
          | (simp only [emit, List.mem_append, List.mem_singleton] at he
             rcases he with he | rfl
             · exact Or.inl he
             · exact Or.inr rfl)
          | exact Or.inl he
  | some v =>
    constructor
    · simp only [stopAllStep, hse]
      split <;> try split
      all_goals rfl
    · simp only [stopAllStep, hse]
      split <;> try split
      all_goals intro e he
      all_goals
        first
          | (simp only [emit, List.mem_append, List.mem_singleton] at he
             rcases he with he | rfl
             · exact Or.inl he
             · exact Or.inr rfl)
          | exact Or.inl he

theorem stopAllGo_spec (b : Option Bool) :
    ∀ entries (st : Coord) (count : Nat),
      (stopAllGo b entries st count).1.store = st.store
        ∧ ∀ e, e ∈ (stopAllGo b entries st count).1.log → e ∈ st.log ∨ e.isSave = false := by
  intro entries
  induction entries with
  | nil =>
    intro st count
    exact ⟨rfl, fun e he => Or.inl he⟩
  | cons hd tl ih =>
    intro st count
    obtain ⟨hs1, hs2⟩ := stopAllStep_spec b hd.1 hd.2 st
    obtain ⟨hg1, hg2⟩ := ih (stopAllStep b hd.1 hd.2 st).1
      (if (stopAllStep b hd.1 hd.2 st).2 then count + 1 else count)
    refine ⟨?_, ?_⟩
    · simp only [stopAllGo]
      rw [hg1, hs1]
    · intro e he
      simp only [stopAllGo] at he
      rcases hg2 e he with h | h
      · exact hs2 e h
      · exact Or.inr h

/-- The four effects `stop_all_items` appends after a positive count are
all notifications, never saves. -/
theorem post_notify_mem (x : Coord) (d1 d2 : String) (e : Effect)
    (he : e ∈ (emit (emit (updateDashboard x) (Effect.dispatch d1)) (Effect.busFire d2)).log) :
    e ∈ x.log ∨ e.isSave = false := by
  simp only [updateDashboard, emit, List.append_assoc, List.mem_append] at he
  rcases he with he | he
  · exact Or.inl he
  · right
    simp only [List.mem_append, List.mem_cons, List.mem_singleton, List.not_mem_nil,
      or_false] at he
    rcases he with rfl | rfl | rfl | rfl <;> rfl

theorem stop_all_items_spec (b : Option Bool) (st : Coord) :
    (stop_all_items b st).store = st.store
      ∧ ∀ e, e ∈ (stop_all_items b st).log → e ∈ st.log ∨ e.isSave = false := by
  obtain ⟨hg1, hg2⟩ := stopAllGo_spec b st.active_items st 0
  by_cases hc : (stopAllGo b st.active_items st 0).2 > 0
  · refine ⟨?_, ?_⟩
    · simp only [stop_all_items, if_pos hc, updateDashboard, emit]
      exact hg1
    · intro e he
      simp only [stop_all_items, if_pos hc] at he
      rcases post_notify_mem _ _ _ e he with he | he
      · exact hg2 e he
      · exact Or.inr he
  · refine ⟨?_, ?_⟩
    · simp only [stop_all_items, if_neg hc]
      exact hg1
    · intro e he
      simp only [stop_all_items, if_neg hc] at he
      exact hg2 e he

/-! ## Behaviour of `snooze_item` -/

theorem snooze_item_finish_spec (now : Nat) (id : String) (m : Nat) (st : Coord)
    (item : Item) :
    lookupA id (snooze_item_finish now id m st item).active_items
        = some { item with
                  scheduled_time := some (((now + m * minUs) / minUs) * minUs)
                  status := "scheduled"
                  last_rescheduled_from :=
                    match item.last_stopped with
                    | some v => some v
                    | none => item.last_rescheduled_from
                  last_stopped := some now }
      ∧ (snooze_item_finish now id m st item).store
        = (snooze_item_finish now id m st item).active_items
      ∧ Effect.armTimer id (((now + m * minUs) / minUs) * minUs)
          ∈ (snooze_item_finish now id m st item).log := by
  refine ⟨?_, ?_, ?_⟩
  · simp only [snooze_item_finish, emit, updateDashboard, doSave]
    exact lookupA_insertA_self _ _ _
  · simp [snooze_item_finish, emit, updateDashboard, doSave]
  · simp [snooze_item_finish, emit, updateDashboard, doSave]

/-- `snooze_item` on a known id called with the item's own kind, from any
prior status: the item is stopped and rescheduled to `now + minutes`
truncated to the minute, with status "scheduled", the table persisted and
a trigger timer armed for exactly that instant. -/
theorem snooze_item_spec (now : Nat) (id : String) (m : Nat) (st : Coord) (item : Item)
    (hid : stripDomain id = id)
    (hmem : lookupA id st.active_items = some item) :
    ∃ itm, lookupA id (snooze_item now id m item.is_alarm st).active_items = some itm
      ∧ itm.scheduled_time = some (((now + m * minUs) / minUs) * minUs)
      ∧ itm.status = "scheduled"
      ∧ (snooze_item now id m item.is_alarm st).store
          = (snooze_item now id m item.is_alarm st).active_items
      ∧ Effect.armTimer id (((now + m * minUs) / minUs) * minUs)
          ∈ (snooze_item now id m item.is_alarm st).log := by
  have hstep : snooze_item now id m item.is_alarm st = snooze_item_go now id m item.is_alarm st := by
    simp only [snooze_item]
    rw [hid, hmem]
    simp
  have hstop : stop_item now id item.is_alarm st = stop_item_found now id item.is_alarm st item :=
    stop_item_eq_found now id item.is_alarm st item hid hmem
  obtain ⟨h1, h2, h3⟩ := stop_item_found_spec now id item.is_alarm st item rfl
  have hlook : lookupA id (stop_item now id item.is_alarm st).active_items
      = some { item with status := "stopped", last_stopped := some now } := by
    rw [hstop, h1, lookupA_insertA_self]
  have hgo : snooze_item_go now id m item.is_alarm st
      = snooze_item_finish now id m (stop_item now id item.is_alarm st)
          { item with status := "stopped", last_stopped := some now } := by
    simp only [snooze_item_go]
    rw [hlook]
    simp
  rw [hstep, hgo]
  obtain ⟨hf1, hf2, hf3⟩ := snooze_item_finish_spec now id m (stop_item now id item.is_alarm st)
      { item with status := "stopped", last_stopped := some now }
  exact ⟨_, hf1, rfl, rfl, hf2, hf3⟩

/-! ## Behaviour of the end of `_start_playback` -/

/-- After the playback loop ends, an item still marked "active" is set to
"stopped" (never "completed"), its `enabled` flag is left untouched, and
the new table is persisted. -/
theorem playback_session_end_spec (now : Nat) (id : String) (st : Coord) (item : Item)
    (hmem : lookupA id st.active_items = some item)
    (hact : item.status = "active") :
    lookupA id (playback_session_end now id st).active_items
        = some { item with status := "stopped", last_stopped := some now }
      ∧ (playback_session_end now id st).store
        = insertA id { item with status := "stopped", last_stopped := some now }
            st.active_items := by
  constructor
  · simp only [playback_session_end, hmem, hact]
    simp [doSave, updateDashboard, emit, lookupA_insertA_self]
  · simp only [playback_session_end, hmem, hact]
    simp [doSave, updateDashboard, emit]

/-! ## Behaviour of `schedule_item` -/

/-- Properties of the successful tail. -/
theorem schedule_apply_spec (now : Nat) (call : ScheduleCall) (isAlarm : Bool)
    (targetSat : Option String) (iid disp : String) (st : Coord) :
    (schedule_apply now call isAlarm targetSat iid disp st).active_items
        = insertA iid (mkScheduledItem now call isAlarm targetSat iid disp) st.active_items
      ∧ (schedule_apply now call isAlarm targetSat iid disp st).store
        = (schedule_apply now call isAlarm targetSat iid disp st).active_items
      ∧ Effect.armTimer iid (schedule_time_of now call)
          ∈ (schedule_apply now call isAlarm targetSat iid disp st).log := by
  refine ⟨?_, ?_, ?_⟩ <;> simp [schedule_apply, doSave, updateDashboard, emit]

/-- Successful scheduling: the new item is stored under the resolved id,
persisted, and a trigger timer armed for the computed instant. -/
theorem schedule_item_ok_spec (now : Nat) (call : ScheduleCall) (isAlarm : Bool)
    (targetSat : Option String) (st : Coord) (iid disp : String)
    (hres : resolveName isAlarm call.name st.active_items = Except.ok (iid, disp)) :
    schedule_item now call isAlarm targetSat st
      = Except.ok (schedule_apply now call isAlarm targetSat iid disp st) := by
  simp only [schedule_item, hres]

/-! ## Name resolution branches -/

theorem resolveName_reminder_collision (s : String) (items : List (String × Item))
    (hcol : (lookupA (s.replace " " "_") items).isSome = true) :
    resolveName false (some s) items = Except.error "Reminder name already exists" := by
  simp [resolveName, hcol]

theorem resolveName_alarm_collision (s : String) (items : List (String × Item))
    (hcol : (lookupA (s.replace " " "_") items).isSome = true) :
    resolveName true (some s) items
      = Except.ok (get_next_available_id "alarm" items, get_next_available_id "alarm" items) := by
  simp [resolveName, hcol]

/-! ## The play-wait loop: when does a cycle terminate the session? -/

theorem cycleDecision_cases (r : Flags × Bool) :
    cycleDecision r = CycleOutcome.terminate ∨ cycleDecision r = CycleOutcome.loopBack := by
  unfold cycleDecision
  split
  · exact Or.inl rfl
  · exact Or.inr rfl

/-- With the stop event never set and no voice-command transition, one
announce/play cycle ends the whole ring session exactly when a
responding→idle transition is reported mid-play; otherwise the audio runs
out and the loop goes back to the announcement. -/
theorem playWait_terminate_iff :
    ∀ ticks : List Tick,
      (∀ t ∈ ticks, t.stopFlag = false) →
      (∀ t ∈ ticks, ¬ isRespListen t.ev) →
      (cycleDecision (playWait { sudden_idle := false, voice := false } false ticks)
          = CycleOutcome.terminate
        ↔ ∃ t ∈ ticks, isRespIdle t.ev) := by
  intro ticks
  induction ticks with
  | nil =>
    intro _ _
    simp [playWait, cycleDecision]
  | cons t rest ih =>
    intro hstop hvoice
    have hst : t.stopFlag = false := hstop t (List.mem_cons_self t rest)
    have hvt : ¬ isRespListen t.ev := hvoice t (List.mem_cons_self t rest)
    by_cases hidle : isRespIdle t.ev
    · have happ : applyEvent { sudden_idle := false, voice := false } t.ev
          = { sudden_idle := true, voice := false } := by
        cases hev : t.ev with
        | none =>
          rw [hev] at hidle
          simp [isRespIdle] at hidle
        | some p =>
          obtain ⟨o, n⟩ := p
          rw [hev] at hidle
          simp only [isRespIdle] at hidle
          simp [applyEvent, hidle.1, hidle.2]
      constructor
      · intro _
        exact ⟨t, List.mem_cons_self t rest, hidle⟩
      · intro _
        simp [playWait, hst, happ, cycleDecision]
    · have happ : applyEvent { sudden_idle := false, voice := false } t.ev
          = { sudden_idle := false, voice := false } := by
        cases hev : t.ev with
        | none => simp [applyEvent]
        | some p =>
          obtain ⟨o, n⟩ := p
          rw [hev] at hidle hvt
          simp only [isRespIdle] at hidle
          simp only [isRespListen] at hvt
          simp [applyEvent, hidle, hvt]
      have hrec : playWait { sudden_idle := false, voice := false } false (t :: rest)
          = playWait { sudden_idle := false, voice := false } false rest := by
        simp [playWait, hst, happ]
      rw [hrec, ih (fun x hx => hstop x (List.mem_cons_of_mem t hx))
            (fun x hx => hvoice x (List.mem_cons_of_mem t hx))]
      constructor
      · intro hex
        obtain ⟨x, hx, hpx⟩ := hex
        exact ⟨x, List.mem_cons_of_mem t hx, hpx⟩
      · intro hex
        obtain ⟨x, hx, hpx⟩ := hex
        rcases List.mem_cons.mp hx with heq | hx
        · exact absurd (heq ▸ hpx) hidle
        · exact ⟨x, hx, hpx⟩

/-! ## The debounced-save invariant -/


theorem debounceInv_init : DebounceInv Debounce.init := by
  simp [DebounceInv, Debounce.init]

theorem debounceInv_step (s : Debounce) (op : DebounceOp) (hinv : DebounceInv s) :
    DebounceInv (debounceStep s op) := by
  cases op with
  | scheduleSave =>
    cases hp : s.pending with
    | none =>
      rw [DebounceInv, hp] at hinv
      simp [debounceStep, schedule_save, hp, DebounceInv, hinv]
    | some h =>
      rw [DebounceInv, hp] at hinv
      rcases hinv with harm | harm <;>
        simp [debounceStep, schedule_save, hp, DebounceInv, harm]
  | fireSave h' =>
    cases hp : s.pending with
    | none =>
      rw [DebounceInv, hp] at hinv
      simp [debounceStep, fire_save, DebounceInv, hp, hinv]
    | some h =>
      rw [DebounceInv, hp] at hinv
      rcases hinv with harm | harm
      · simp [debounceStep, fire_save, DebounceInv, hp, harm]
      · have hstep : debounceStep s (DebounceOp.fireSave h')
            = { s with armed := s.armed.erase h' } := rfl
        rw [DebounceInv, hstep]
        simp only [hp, harm]
        by_cases hhe : h = h'
        · subst hhe
          simp
        · simp [List.erase_cons, hhe]

theorem debounceInv_run (ops : List DebounceOp) : DebounceInv (debounceRun ops) := by
  have hgen : ∀ (l : List DebounceOp) (s : Debounce), DebounceInv s →
      DebounceInv (l.foldl debounceStep s) := by
    intro l
    induction l with
    | nil => intro s hs; exact hs
    | cons op rest ih =>
      intro s hs
      exact ih (debounceStep s op) (debounceInv_step s op hs)
  exact hgen ops Debounce.init debounceInv_init

theorem debounceInv_length (s : Debounce) (hinv : DebounceInv s) : s.armed.length ≤ 1 := by
  rw [DebounceInv] at hinv
  cases hp : s.pending with
  | none => rw [hp] at hinv; simp [hinv]
  | some h =>
    rw [hp] at hinv
    rcases hinv with harm | harm <;> simp [harm]


/-! ## The claims -/

/-- C1, counterexample: on a daily alarm whose `scheduled_time` has passed,
`stop_item` leaves `scheduled_time` exactly where it was — it is not
recomputed and is not strictly greater than the `now` of the stop, contrary
to the claim. -/
theorem C1_counterexample :
    (lookupA "alarm_1" (stop_item 2000000000000 "alarm_1" true
        ⟨[("alarm_1", itemDaily)], [], [("alarm_1", itemDaily)], []⟩).active_items).map
        (fun itm => (itm.status, itm.repeatPolicy, itm.scheduled_time))
      = some ("stopped", "daily", some 1000000000000)
    ∧ ¬ (2000000000000 < 1000000000000) := by decide

/-- C1, amended: for every item found in memory with the matching kind —
whatever its repeat policy — `stop_item` sets `status = "stopped"`, stamps
`last_stopped`, persists the table, and leaves `scheduled_time` unchanged;
no next occurrence is ever computed. -/
theorem C1_stop_preserves_scheduled_time (now : Nat) (id : String) (b : Bool)
    (st : Coord) (item : Item)
    (hid : stripDomain id = id)
    (hmem : lookupA id st.active_items = some item)
    (hkind : item.is_alarm = b) :
    lookupA id (stop_item now id b st).active_items
        = some { item with status := "stopped", last_stopped := some now }
      ∧ ({ item with status := "stopped", last_stopped := some now } : Item).scheduled_time
        = item.scheduled_time
      ∧ (stop_item now id b st).store = (stop_item now id b st).active_items := by
  obtain ⟨h1, h2, h3⟩ := stop_item_found_spec now id b st item hkind
  rw [stop_item_eq_found now id b st item hid hmem]
  exact ⟨by rw [h1, lookupA_insertA_self], rfl, by rw [h2, h1]⟩

/-- Witness for the amended C1 theorem at a concrete daily alarm. -/
theorem C1_stop_preserves_scheduled_time_witness :
    lookupA "alarm_1" (stop_item 5 "alarm_1" true
        ⟨[("alarm_1", itemDaily)], [], [("alarm_1", itemDaily)], []⟩).active_items
        = some { itemDaily with status := "stopped", last_stopped := some 5 }
      ∧ ({ itemDaily with status := "stopped", last_stopped := some 5 } : Item).scheduled_time
        = itemDaily.scheduled_time
      ∧ (stop_item 5 "alarm_1" true
          ⟨[("alarm_1", itemDaily)], [], [("alarm_1", itemDaily)], []⟩).store
        = (stop_item 5 "alarm_1" true
          ⟨[("alarm_1", itemDaily)], [], [("alarm_1", itemDaily)], []⟩).active_items :=
  C1_stop_preserves_scheduled_time 5 "alarm_1" true
    ⟨[("alarm_1", itemDaily)], [], [("alarm_1", itemDaily)], []⟩ itemDaily
    (by decide) (by decide) (by decide)

/-- C2, counterexample: when the ring session of a `repeat = "once"` item
ends, the item is left with `status = "stopped"` — not "completed" — and
`enabled` is still `true`, contrary to the claim. -/
theorem C2_counterexample :
    (lookupA "alarm_1" (playback_session_end 7 "alarm_1"
        ⟨[("alarm_1", itemOnceActive)], [("alarm_1", false)],
         [("alarm_1", itemOnceActive)], []⟩).active_items).map
        (fun itm => (itm.repeatPolicy, itm.status, itm.enabled))
      = some ("once", "stopped", true)
    ∧ ("stopped" : String) ≠ "completed" := by decide

/-- C2, amended: after the playback loop ends, an item still marked
"active" — whatever its repeat policy — transitions to `status =
"stopped"` (the code has no "completed" status), its `enabled` flag is
left untouched, and the new table is persisted. -/
theorem C2_session_end_stops_not_completes (now : Nat) (id : String) (st : Coord)
    (item : Item)
    (hmem : lookupA id st.active_items = some item)
    (hact : item.status = "active") :
    ∃ itm, lookupA id (playback_session_end now id st).active_items = some itm
      ∧ itm.status = "stopped"
      ∧ itm.status ≠ "completed"
      ∧ itm.enabled = item.enabled := by
  obtain ⟨h1, h2⟩ := playback_session_end_spec now id st item hmem hact
  exact ⟨_, h1, rfl, by simp, rfl⟩

/-- Witness for the amended C2 theorem at a concrete active once-item. -/
theorem C2_session_end_stops_not_completes_witness :
    ∃ itm, lookupA "alarm_1" (playback_session_end 7 "alarm_1"
        ⟨[("alarm_1", itemOnceActive)], [("alarm_1", false)],
         [("alarm_1", itemOnceActive)], []⟩).active_items = some itm
      ∧ itm.status = "stopped"
      ∧ itm.status ≠ "completed"
      ∧ itm.enabled = itemOnceActive.enabled :=
  C2_session_end_stops_not_completes 7 "alarm_1"
    ⟨[("alarm_1", itemOnceActive)], [("alarm_1", false)], [("alarm_1", itemOnceActive)], []⟩
    itemOnceActive (by decide) (by decide)

/-- C3, counterexample: scheduling with an explicitly supplied date (day 0)
whose combined instant is in the past (now is midnight of day 2) still
pushes the stored `scheduled_time` one day forward — the explicit date does
not suppress the adjustment, contrary to the claim. -/
theorem C3_counterexample :
    (schedule_item (2 * dayUs) c3call true none ⟨[], [], [], []⟩).toOption.map
        (fun s => (lookupA "alarm_1" s.active_items).map Item.scheduled_time)
      = some (some (some (28800000000 + dayUs)))
    ∧ c3call.date = some 0
    ∧ 28800000000 + dayUs ≠ 28800000000 := by decide

/-- C3, amended: the initial `scheduled_time` is pushed to the next day
exactly when the combined date+time is ≤ now, regardless of whether a date
was explicitly supplied; the stored item always carries that value. -/
theorem C3_push_regardless_of_date :
    (∀ now call, schedule_combined now call ≤ now →
        schedule_time_of now call = schedule_combined now call + dayUs)
      ∧ (∀ now call, now < schedule_combined now call →
        schedule_time_of now call = schedule_combined now call)
      ∧ ∀ now (call : ScheduleCall) (isAlarm : Bool) tgt (st : Coord) iid disp,
          resolveName isAlarm call.name st.active_items = Except.ok (iid, disp) →
          ∃ st2, schedule_item now call isAlarm tgt st = Except.ok st2
            ∧ (lookupA iid st2.active_items).map Item.scheduled_time
                = some (some (schedule_time_of now call)) := by
  refine ⟨?_, ?_, ?_⟩
  · intro now call h
    simp [schedule_time_of, h]
  · intro now call h
    simp [schedule_time_of, Nat.not_le.mpr h]
  · intro now call isAlarm tgt st iid disp hres
    refine ⟨_, schedule_item_ok_spec now call isAlarm tgt st iid disp hres, ?_⟩
    obtain ⟨ha, _, _⟩ := schedule_apply_spec now call isAlarm tgt iid disp st
    rw [ha, lookupA_insertA_self]
    rfl

/-- Witness for the amended C3 theorem: the past-date call is pushed a day
forward, a future instant is kept, and the stored item carries the value. -/
theorem C3_push_regardless_of_date_witness :
    schedule_time_of (2 * dayUs) c3call = schedule_combined (2 * dayUs) c3call + dayUs
      ∧ schedule_time_of 0 { c3call with date := some 3 }
          = schedule_combined 0 { c3call with date := some 3 }
      ∧ ∃ st2, schedule_item (2 * dayUs) c3call true none ⟨[], [], [], []⟩ = Except.ok st2
          ∧ (lookupA "alarm_1" st2.active_items).map Item.scheduled_time
              = some (some (schedule_time_of (2 * dayUs) c3call)) :=
  ⟨C3_push_regardless_of_date.1 (2 * dayUs) c3call (by decide),
   C3_push_regardless_of_date.2.1 0 { c3call with date := some 3 } (by decide),
   C3_push_regardless_of_date.2.2 (2 * dayUs) c3call true none ⟨[], [], [], []⟩
     "alarm_1" "alarm_1" rfl⟩

/-- C4, counterexample: a responding→idle report mid-play, with the stop
signal never set, terminates the ring session — the session announces once
and never loops back, although a second cycle was available; without the
idle report the same session announces twice.  This contradicts the claim
that an idle report mid-play merely continues the loop. -/
theorem C4_counterexample :
    cycleDecision (playWait { sudden_idle := false, voice := false } false
        [tickNone, tickIdle, tickNone]) = CycleOutcome.terminate
      ∧ runSession { sudden_idle := false, voice := false } [cycleWithIdle, cycleQuiet] = 1
      ∧ runSession { sudden_idle := false, voice := false } [cycleQuiet, cycleQuiet] = 2 := by
  decide

/-- C4, amended: with the stop signal never set and no voice-command
transition, a play cycle terminates the session precisely when a
responding→idle transition is reported mid-play; in every other case —
including idle reports whose previous state is not "responding" — the
session loops back to the announcement. -/
theorem C4_responding_idle_terminates_iff (ticks : List Tick)
    (hstop : ∀ t ∈ ticks, t.stopFlag = false)
    (hvoice : ∀ t ∈ ticks, ¬ isRespListen t.ev) :
    (cycleDecision (playWait { sudden_idle := false, voice := false } false ticks)
        = CycleOutcome.terminate
      ↔ ∃ t ∈ ticks, isRespIdle t.ev)
    ∧ (cycleDecision (playWait { sudden_idle := false, voice := false } false ticks)
        = CycleOutcome.loopBack
      ↔ ¬ ∃ t ∈ ticks, isRespIdle t.ev) := by
  have h := playWait_terminate_iff ticks hstop hvoice
  refine ⟨h, ?_⟩
  rcases cycleDecision_cases (playWait { sudden_idle := false, voice := false } false ticks)
    with hd | hd
  · rw [hd]
    constructor
    · intro hc
      exact absurd hc (by decide)
    · intro hn
      exact absurd (h.mp hd) hn
  · rw [hd]
    constructor
    · intro _ hex
      have hterm := h.mpr hex
      rw [hd] at hterm
      exact absurd hterm (by decide)
    · intro _
      rfl

/-- Witness for the amended C4 theorem on concrete traces: with a
responding→idle tick the cycle terminates; an idle report arriving from
the "listening" state does not. -/
theorem C4_responding_idle_terminates_iff_witness :
    (cycleDecision (playWait { sudden_idle := false, voice := false } false
          [tickNone, tickIdle, tickNone]) = CycleOutcome.terminate
        ↔ ∃ t ∈ [tickNone, tickIdle, tickNone], isRespIdle t.ev)
      ∧ (cycleDecision (playWait { sudden_idle := false, voice := false } false
          [tickNone, tickIdle, tickNone]) = CycleOutcome.loopBack
        ↔ ¬ ∃ t ∈ [tickNone, tickIdle, tickNone], isRespIdle t.ev) :=
  C4_responding_idle_terminates_iff [tickNone, tickIdle, tickNone]
    (by decide) (by decide)

/-- C5, counterexample: `_trigger_item` on a known but disabled item is not
a no-op: the item becomes "active", a playback session is started for it,
and the store is rewritten — the `enabled` flag is never consulted,
contrary to the claim. -/
theorem C5_counterexample :
    (lookupA "alarm_1" (trigger_item "alarm_1"
        ⟨[("alarm_1", itemDisabled)], [], [("alarm_1", itemDisabled)], []⟩).active_items).map
        (fun itm => (itm.enabled, itm.status))
      = some (false, "active")
    ∧ Effect.startPlayback "alarm_1"
        ∈ (trigger_item "alarm_1"
            ⟨[("alarm_1", itemDisabled)], [], [("alarm_1", itemDisabled)], []⟩).log := by
  decide

/-- C5, amended: `_trigger_item` is a no-op exactly when the id is unknown;
for a known id it sets the item "active" and starts playback regardless of
the `enabled` flag (which it leaves unchanged and never reads). -/
theorem C5_trigger_ignores_enabled :
    (∀ id (st : Coord), lookupA id st.active_items = none → trigger_item id st = st)
      ∧ ∀ id (st : Coord) item, lookupA id st.active_items = some item →
          ∃ itm, lookupA id (trigger_item id st).active_items = some itm
            ∧ itm.status = "active"
            ∧ itm.enabled = item.enabled
            ∧ Effect.startPlayback id ∈ (trigger_item id st).log := by
  constructor
  · exact fun id st h => trigger_item_unknown id st h
  · intro id st item hmem
    obtain ⟨h1, h2, h3, h4⟩ := trigger_item_spec id st item hmem
    refine ⟨{ item with status := "active" }, ?_, rfl, rfl, h4⟩
    rw [h1, lookupA_insertA_self]

/-- Witness for the amended C5 theorem: an unknown id is a no-op, and a
known disabled item is still activated. -/
theorem C5_trigger_ignores_enabled_witness :
    trigger_item "ghost" ⟨[], [], [], []⟩ = ⟨[], [], [], []⟩
      ∧ ∃ itm, lookupA "alarm_1" (trigger_item "alarm_1"
            ⟨[("alarm_1", itemDisabled)], [], [("alarm_1", itemDisabled)], []⟩).active_items
          = some itm
        ∧ itm.status = "active"
        ∧ itm.enabled = itemDisabled.enabled
        ∧ Effect.startPlayback "alarm_1"
            ∈ (trigger_item "alarm_1"
                ⟨[("alarm_1", itemDisabled)], [], [("alarm_1", itemDisabled)], []⟩).log :=
  ⟨C5_trigger_ignores_enabled.1 "ghost" ⟨[], [], [], []⟩ (by decide),
   C5_trigger_ignores_enabled.2 "alarm_1"
     ⟨[("alarm_1", itemDisabled)], [], [("alarm_1", itemDisabled)], []⟩ itemDisabled
     (by decide)⟩

/-- C6, counterexample: `stop_all_items` flips an active item to "stopped"
in memory and emits entity updates, dispatcher sends and a bus event, yet
never writes the store — the persisted record still says "active" after
the notifications went out, contrary to the persist-before-notify claim. -/
theorem C6_counterexample :
    (stop_all_items none
        ⟨[("alarm_1", itemOnceActive)], [], [("alarm_1", itemOnceActive)], []⟩).log.filter
        Effect.isSave = []
      ∧ (stop_all_items none
          ⟨[("alarm_1", itemOnceActive)], [], [("alarm_1", itemOnceActive)], []⟩).log.filter
          Effect.isNotify ≠ []
      ∧ (lookupA "alarm_1" (stop_all_items none
          ⟨[("alarm_1", itemOnceActive)], [], [("alarm_1", itemOnceActive)], []⟩).active_items).map
          Item.status = some "stopped"
      ∧ (lookupA "alarm_1" (stop_all_items none
          ⟨[("alarm_1", itemOnceActive)], [], [("alarm_1", itemOnceActive)], []⟩).store).map
          Item.status = some "active" := by
  decide

/-- C6, amended: `_trigger_item` and `stop_item` persist the new table as
the very first effect of the call, before any dispatcher send, entity
update or event fire; but `stop_all_items` never persists at all — it
leaves the store untouched while emitting only notifications. -/
theorem C6_persist_first_except_stop_all :
    (∀ id (st : Coord) item, st.log = [] → lookupA id st.active_items = some item →
        (trigger_item id st).log.head?
          = some (Effect.save (insertA id { item with status := "active" } st.active_items)))
      ∧ (∀ now id b (st : Coord) item, st.log = [] → stripDomain id = id →
          lookupA id st.active_items = some item → item.is_alarm = b →
          (stop_item now id b st).log.head?
            = some (Effect.save
                (insertA id { item with status := "stopped", last_stopped := some now }
                  st.active_items)))
      ∧ ∀ b (st : Coord), st.log = [] →
          (stop_all_items b st).store = st.store
            ∧ ∀ e, e ∈ (stop_all_items b st).log → e.isSave = false := by
  refine ⟨?_, ?_, ?_⟩
  · intro id st item hlog hmem
    obtain ⟨_, _, ⟨tail, hl⟩, _⟩ := trigger_item_spec id st item hmem
    rw [hl, hlog]
    rfl
  · intro now id b st item hlog hid hmem hkind
    obtain ⟨_, _, hl⟩ := stop_item_found_spec now id b st item hkind
    rw [stop_item_eq_found now id b st item hid hmem, hl, hlog]
    rfl
  · intro b st hlog
    obtain ⟨h1, h2⟩ := stop_all_items_spec b st
    refine ⟨h1, fun e he => ?_⟩
    rcases h2 e he with hmem | hns
    · rw [hlog] at hmem
      exact absurd hmem (List.not_mem_nil e)
    · exact hns

/-- Witness for the amended C6 theorem at concrete states. -/
theorem C6_persist_first_except_stop_all_witness :
    (trigger_item "alarm_1" ⟨[("alarm_1", baseItem)], [], [], []⟩).log.head?
        = some (Effect.save
            (insertA "alarm_1" { baseItem with status := "active" } [("alarm_1", baseItem)]))
      ∧ (stop_item 5 "alarm_1" true ⟨[("alarm_1", baseItem)], [], [], []⟩).log.head?
        = some (Effect.save
            (insertA "alarm_1" { baseItem with status := "stopped", last_stopped := some 5 }
              [("alarm_1", baseItem)]))
      ∧ (stop_all_items none
            ⟨[("alarm_1", itemOnceActive)], [], [("alarm_1", itemOnceActive)], []⟩).store
          = (⟨[("alarm_1", itemOnceActive)], [], [("alarm_1", itemOnceActive)], []⟩ : Coord).store :=
  ⟨C6_persist_first_except_stop_all.1 "alarm_1" ⟨[("alarm_1", baseItem)], [], [], []⟩
     baseItem rfl (by decide),
   C6_persist_first_except_stop_all.2.1 5 "alarm_1" true
     ⟨[("alarm_1", baseItem)], [], [], []⟩ baseItem rfl (by decide) (by decide) (by decide),
   (C6_persist_first_except_stop_all.2.2 none
     ⟨[("alarm_1", itemOnceActive)], [], [("alarm_1", itemOnceActive)], []⟩ rfl).1⟩

/-- C7: for every known item id — whatever its prior status — snoozing with
the item's own kind sets `scheduled_time` to `now + minutes` truncated to
the minute boundary, sets `status = "scheduled"`, persists the table, and
arms a trigger timer for exactly that instant. -/
theorem C7_snooze_floor_minute (now : Nat) (id : String) (m : Nat) (st : Coord)
    (item : Item)
    (hid : stripDomain id = id)
    (hmem : lookupA id st.active_items = some item) :
    ∃ itm, lookupA id (snooze_item now id m item.is_alarm st).active_items = some itm
      ∧ itm.scheduled_time = some (((now + m * minUs) / minUs) * minUs)
      ∧ itm.status = "scheduled"
      ∧ (snooze_item now id m item.is_alarm st).store
          = (snooze_item now id m item.is_alarm st).active_items
      ∧ Effect.armTimer id (((now + m * minUs) / minUs) * minUs)
          ∈ (snooze_item now id m item.is_alarm st).log :=
  snooze_item_spec now id m st item hid hmem

/-- Witness for C7: snoozing a ringing alarm by 5 minutes at a concrete
time lands on the next minute boundary. -/
theorem C7_snooze_floor_minute_witness :
    ∃ itm, lookupA "alarm_1" (snooze_item 90000000 "alarm_1" 5 itemOnceActive.is_alarm
        ⟨[("alarm_1", itemOnceActive)], [], [("alarm_1", itemOnceActive)], []⟩).active_items
        = some itm
      ∧ itm.scheduled_time = some (((90000000 + 5 * minUs) / minUs) * minUs)
      ∧ itm.status = "scheduled"
      ∧ (snooze_item 90000000 "alarm_1" 5 itemOnceActive.is_alarm
          ⟨[("alarm_1", itemOnceActive)], [], [("alarm_1", itemOnceActive)], []⟩).store
        = (snooze_item 90000000 "alarm_1" 5 itemOnceActive.is_alarm
          ⟨[("alarm_1", itemOnceActive)], [], [("alarm_1", itemOnceActive)], []⟩).active_items
      ∧ Effect.armTimer "alarm_1" (((90000000 + 5 * minUs) / minUs) * minUs)
          ∈ (snooze_item 90000000 "alarm_1" 5 itemOnceActive.is_alarm
              ⟨[("alarm_1", itemOnceActive)], [], [("alarm_1", itemOnceActive)], []⟩).log :=
  C7_snooze_floor_minute 90000000 "alarm_1" 5
    ⟨[("alarm_1", itemOnceActive)], [], [("alarm_1", itemOnceActive)], []⟩ itemOnceActive
    (by decide) (by decide)

/-- C8: scheduling a reminder whose sanitized name collides with an
existing item's id fails with the duplicate `ValueError`, and the raised
error carries the coordinator state exactly as it was — no in-memory or
persisted mutation happened before the raise.  Scheduling an alarm under
the same colliding name succeeds instead: the item is stored under the
freshly generated numeric id, which is provably not a key of the table, so
the colliding item is left untouched. -/
theorem C8_reminder_collision_atomic_alarm_renames (now : Nat) (call : ScheduleCall)
    (tgt : Option String) (st : Coord) (s : String)
    (hname : call.name = some s)
    (hcol : (lookupA (s.replace " " "_") st.active_items).isSome = true) :
    schedule_item now call false tgt st
        = Except.error ("Reminder name already exists", st)
      ∧ ∃ st2, schedule_item now call true tgt st = Except.ok st2
          ∧ st2.active_items
              = insertA (get_next_available_id "alarm" st.active_items)
                  (mkScheduledItem now call true tgt
                    (get_next_available_id "alarm" st.active_items)
                    (get_next_available_id "alarm" st.active_items))
                  st.active_items
          ∧ lookupA (get_next_available_id "alarm" st.active_items) st.active_items = none
          ∧ lookupA (s.replace " " "_") st2.active_items
              = lookupA (s.replace " " "_") st.active_items := by
  have hfresh := lookupA_get_next_available_id "alarm" st.active_items
  constructor
  · simp only [schedule_item, hname, resolveName_reminder_collision s st.active_items hcol]
  · have hres : resolveName true call.name st.active_items
        = Except.ok (get_next_available_id "alarm" st.active_items,
            get_next_available_id "alarm" st.active_items) := by
      rw [hname]
      exact resolveName_alarm_collision s st.active_items hcol
    refine ⟨_, schedule_item_ok_spec now call true tgt st _ _ hres, ?_, hfresh, ?_⟩
    · exact (schedule_apply_spec now call true tgt _ _ st).1
    · rw [(schedule_apply_spec now call true tgt _ _ st).1]
      apply lookupA_insertA_ne
      intro he
      rw [he] at hfresh
      rw [hfresh] at hcol
      simp at hcol

/-- Witness for C8 at a concrete store holding the reminder "wake up". -/
theorem C8_reminder_collision_atomic_alarm_renames_witness :
    schedule_item 0 c8call false none c8state
        = Except.error ("Reminder name already exists", c8state)
      ∧ ∃ st2, schedule_item 0 c8call true none c8state = Except.ok st2
          ∧ st2.active_items
              = insertA (get_next_available_id "alarm" c8state.active_items)
                  (mkScheduledItem 0 c8call true none
                    (get_next_available_id "alarm" c8state.active_items)
                    (get_next_available_id "alarm" c8state.active_items))
                  c8state.active_items
          ∧ lookupA (get_next_available_id "alarm" c8state.active_items)
              c8state.active_items = none
          ∧ lookupA ("wake up".replace " " "_") st2.active_items
              = lookupA ("wake up".replace " " "_") c8state.active_items :=
  C8_reminder_collision_atomic_alarm_renames 0 c8call none c8state "wake up" rfl
    (by simp [c8state, c8key, lookupA])

/-- C9: `stop_item` on an id absent from the in-memory table but present in
persisted storage is not a no-op — it restores the stored item into
memory, marks it "stopped" with a `last_stopped` stamp, and persists the
result. -/
theorem C9_stop_restores_from_storage (now : Nat) (id : String) (b : Bool) (st : Coord)
    (item : Item)
    (hid : stripDomain id = id)
    (hmem : lookupA id st.active_items = none)
    (hstore : lookupA id st.store = some item)
    (hkind : item.is_alarm = b) :
    lookupA id (stop_item now id b st).active_items
        = some { item with status := "stopped", last_stopped := some now }
      ∧ (stop_item now id b st).store = (stop_item now id b st).active_items := by
  have hs := stop_item_found_spec now id b
    { st with active_items := insertA id item st.active_items } item hkind
  rw [stop_item_eq_restore now id b st item hid hmem hstore]
  constructor
  · rw [hs.1]
    simp only [insertA_insertA]
    exact lookupA_insertA_self _ _ _
  · rw [hs.2.1, hs.1]

/-- Witness for C9: a stored-but-unloaded alarm is resurrected and
stopped. -/
theorem C9_stop_restores_from_storage_witness :
    lookupA "alarm_1" (stop_item 9 "alarm_1" true
        ⟨[], [], [("alarm_1", baseItem)], []⟩).active_items
        = some { baseItem with status := "stopped", last_stopped := some 9 }
      ∧ (stop_item 9 "alarm_1" true ⟨[], [], [("alarm_1", baseItem)], []⟩).store
        = (stop_item 9 "alarm_1" true ⟨[], [], [("alarm_1", baseItem)], []⟩).active_items :=
  C9_stop_restores_from_storage 9 "alarm_1" true ⟨[], [], [("alarm_1", baseItem)], []⟩
    baseItem (by decide) (by decide) (by decide) (by decide)

/-- C10: however mutations and timer firings interleave, the storage
debouncer keeps at most one armed save callback at any instant, and every
call to `async_schedule_save` first cancels the previous callback, leaving
exactly the freshly armed one. -/
theorem C10_debounce_single_pending :
    ∀ ops : List DebounceOp,
      (debounceRun ops).armed.length ≤ 1
        ∧ (schedule_save (debounceRun ops)).armed = [(debounceRun ops).counter] := by
  intro ops
  have hinv := debounceInv_run ops
  refine ⟨debounceInv_length _ hinv, ?_⟩
  rw [DebounceInv] at hinv
  cases hp : (debounceRun ops).pending with
  | none =>
    rw [hp] at hinv
    simp [schedule_save, hp, hinv]
  | some h =>
    rw [hp] at hinv
    rcases hinv with harm | harm <;> simp [schedule_save, hp, harm]
